import Mathlib

/-!
Verification of the capture-and-streaming pipeline of `recorder_app.py`
(classes `AudioRecorder` and `App`, function `save_wav`).

The embedding models:
  * the bounded thread-safe queues (`queue.Queue(maxsize=…)` with
    `put_nowait` / `except queue.Full: pass`) as `BQueue`;
  * transcript events (`{"final": text}` / `{"partial": text}` dicts) as
    `TEvent` (`interimEv` stands for the "partial" variant);
  * the capture thread body `AudioRecorder._run` as `runReads` / `runLoop`
    over a finite list of device-read outcomes, where `ReadResult.readFailure`
    models an exception raised by `self._stream.read` (the loop `break`s)
    and the list ending models the stop flag becoming set;
  * the amplitude computation `rms`/`level` exactly as in `_run`
    (`math.sqrt(sum(s*s)/len)/32768`, then `min(1.0, rms*6)`);
  * `save_wav` as the WAV container header the Python `wave` module
    produces (frame count is derived from the byte length of the joined
    chunks, 2 bytes per 16-bit mono sample);
  * the UI-side state of `App` (`_start_recording`, `_poll_transcript`,
    `_stop_recording`, `_show_main`) as pure functions on `AppState`.
-/

namespace Recorder

/-- Configuration constant `SAMPLE_RATE = 16000` from the source. -/
def SAMPLE_RATE : Nat := 16000

/-- Configuration constant `CHUNK_SIZE = 4000` from the source. -/
def CHUNK_SIZE : Nat := 4000

/-- Configuration constant `CHANNELS = 1` from the source. -/
def CHANNELS : Nat := 1

/-- A transcript event as placed on the transcript queue by
`AudioRecorder._run`: either `{"final": text}` or `{"partial": text}`.
`interimEv` models the "partial" (in-progress hypothesis) variant. -/
inductive TEvent where
  | finalEv (text : String)
  | interimEv (text : String)
deriving DecidableEq, Repr

/-- The text carried by a transcript event. -/
def TEvent.text : TEvent → String
  | .finalEv t => t
  | .interimEv t => t

/-- Python's `str.strip()`: remove leading and trailing whitespace.
Implemented over the character list so that it evaluates by kernel
reduction. -/
def stripStr (s : String) : String :=
  ⟨((s.data.dropWhile Char.isWhitespace).reverse.dropWhile Char.isWhitespace).reverse⟩

/-- What the decoder reports for one fed chunk in `_run`: either
`AcceptWaveform` returned true and `Result()` holds `raw` text
(`finalRes`), or it returned false and `PartialResult()` holds `raw`
text (`interimRes`). -/
inductive DecodeOutcome where
  | finalRes (raw : String)
  | interimRes (raw : String)
deriving DecidableEq, Repr

/-- One iteration's device read in `_run`: a successful
`self._stream.read` yielding the chunk's samples together with the
decoder's outcome for that chunk, or an exception from the read
(the `except Exception: break` path). -/
inductive ReadResult where
  | chunkRead (samples : List Int) (dec : DecodeOutcome)
  | readFailure
deriving DecidableEq, Repr

/-- A bounded queue, modelling `queue.Queue(maxsize=cap)`.  `items` lists
the queued values front-first. -/
structure BQueue (α : Type) where
  cap : Nat
  items : List α
deriving Repr

/-- `put_nowait` wrapped in `try … except queue.Full: pass`: enqueue at
the back when below capacity, silently drop otherwise. -/
def BQueue.putNowait {α : Type} (q : BQueue α) (x : α) : BQueue α :=
  if q.items.length < q.cap then { q with items := q.items ++ [x] } else q

/-- The state owned by the capture thread: `self._frames` plus the two
queues (`self._tq` transcript, `self._lq` level). -/
structure RunState where
  frames : List (List Int)
  tq : BQueue TEvent
  lq : BQueue ℝ

/-- The RMS computation from `_run`:
`math.sqrt(sum(s*s for s in samples)/len(samples))/32768`. -/
noncomputable def rms (samples : List Int) : ℝ :=
  Real.sqrt ((samples.map (fun s : Int => (s : ℝ) * (s : ℝ))).sum / samples.length)
    / 32768

/-- The published level value from `_run`: `min(1.0, rms*6)`. -/
noncomputable def level (samples : List Int) : ℝ :=
  min 1 (rms samples * 6)

/-- The body of one successful loop iteration of `AudioRecorder._run`:
append the chunk to `_frames`, non-blocking-put the level onto `_lq`,
then publish the decoder outcome's stripped text onto `_tq` when it is
non-empty (`if text:` guards both the final and the partial branch). -/
noncomputable def processChunk (st : RunState) (samples : List Int)
    (dec : DecodeOutcome) : RunState :=
  let st1 : RunState := { st with frames := st.frames ++ [samples] }
  let st2 : RunState := { st1 with lq := st1.lq.putNowait (level samples) }
  match dec with
  | .finalRes raw =>
      let text := stripStr raw
      if text ≠ "" then { st2 with tq := st2.tq.putNowait (.finalEv text) } else st2
  | .interimRes raw =>
      let text := stripStr raw
      if text ≠ "" then { st2 with tq := st2.tq.putNowait (.interimEv text) } else st2

/-- The `while not self._stop.is_set():` loop of `_run` over a finite
trace of reads: a read failure `break`s, otherwise the iteration body
runs and the loop continues. -/
noncomputable def runReads (st : RunState) : List ReadResult → RunState
  | [] => st
  | .readFailure :: _ => st
  | .chunkRead samples dec :: rest => runReads (processChunk st samples dec) rest

/-- The trailing flush after the loop in `_run`:
`json.loads(self._rec.FinalResult()).get("text","").strip()`, published
as a final event via `put_nowait` when non-empty. -/
noncomputable def flushFinal (st : RunState) (raw : String) : RunState :=
  let text := stripStr raw
  if text ≠ "" then { st with tq := st.tq.putNowait (.finalEv text) } else st

/-- The whole of `AudioRecorder._run`: the read loop followed by the
trailing final-result flush. -/
noncomputable def runLoop (st : RunState) (reads : List ReadResult)
    (flushRaw : String) : RunState :=
  flushFinal (runReads st reads) flushRaw

/-- A completed-recording record as appended to `self.recordings` by
`App._stop_recording`. -/
structure Summary where
  name : String
  timestamp : String
  wav : Option String
  transcript : String
deriving DecidableEq, Repr

/-- The WAV container produced by `save_wav` via the `wave` module:
header fields set by `setnchannels` / `setsampwidth` / `setframerate`,
and the byte length of `b"".join(frames)` passed to `writeframes`
(each 16-bit mono sample contributes 2 bytes). -/
structure WavFile where
  nchannels : Nat
  sampwidth : Nat
  framerate : Nat
  dataLen : Nat
deriving DecidableEq, Repr

/-- `save_wav(frames, path)` from the source: mono (`CHANNELS`), 2-byte
samples, `SAMPLE_RATE`, data = concatenation of the chunks' bytes. -/
def save_wav (frames : List (List Int)) : WavFile :=
  { nchannels := CHANNELS
    sampwidth := 2
    framerate := SAMPLE_RATE
    dataLen := (frames.map (fun f => 2 * f.length)).sum }

/-- The frame (sample) count the `wave` module declares in the header:
data length divided by `nchannels * sampwidth`. -/
def WavFile.nframes (w : WavFile) : Nat :=
  w.dataLen / (w.nchannels * w.sampwidth)

/-- Result of `App._stop_recording`'s save-and-append section:
the updated registry, whether `save_wav` was invoked at all
(`if frames:`), and the successfully written container if the write
completed. -/
structure StopResult where
  recordings : List Summary
  writeAttempted : Bool
  savedFile : Option WavFile
deriving Repr

/-- The summary dict literal built in `App._stop_recording`:
`{"name": …, "timestamp": …, "wav": wav_path, "transcript":
self._transcript_final.strip()}`, where `wav_path` is `None` when there
were no frames or the write raised. -/
def mkSummary (frames : List (List Int)) (transcriptFinal : String)
    (wavPath : String) (writeOk : Bool) (nm ts : String) : Summary :=
  { name := nm
    timestamp := ts
    wav := if frames = [] then none else if writeOk then some wavPath else none
    transcript := stripStr transcriptFinal }

/-- The save-and-append tail of `App._stop_recording`: `save_wav` is
called only when `frames` is non-empty; a raised exception during the
write (`writeOk = false`) sets `wav_path = None`; the summary is
appended to `self.recordings` unconditionally. -/
def stopRecording (frames : List (List Int)) (transcriptFinal : String)
    (wavPath : String) (writeOk : Bool) (recs : List Summary)
    (nm ts : String) : StopResult :=
  { recordings := recs ++ [mkSummary frames transcriptFinal wavPath writeOk nm ts]
    writeAttempted := !frames.isEmpty
    savedFile := if frames = [] then none
                 else if writeOk then some (save_wav frames) else none }

/-- The consumer-side state of `App` relevant to the pipeline:
recording flag, registry, transcript aggregation strings, the two
queues, the most recent level, and the live recorder's accumulated
frames (`self._audio_rec`, `none` when the attribute is `None`). -/
structure AppState where
  isRecording : Bool
  recordings : List Summary
  transcriptFinal : String
  transcriptInterim : String
  tq : BQueue TEvent
  lq : BQueue ℝ
  micLevel : ℝ
  audioRec : Option (List (List Int))

/-- Outcome of `App._start_recording`: either the session started
(`self.is_recording = True` reached) or a `messagebox.showerror` was
shown and the method returned early. -/
inductive StartOutcome where
  | started
  | errorShown
deriving DecidableEq, Repr

/-- `App._start_recording`: clears both transcript strings, drains both
queues, builds a fresh `AudioRecorder` and calls its `start()`
(modelled by the two success flags: `loadOk` for `_load_model`,
`openOk` for opening the PyAudio stream).  On failure an error dialog
is shown and the method returns; on success `is_recording` is set.
There is no check of `is_recording` anywhere on this path. -/
def startRecording (st : AppState) (loadOk openOk : Bool) :
    AppState × StartOutcome :=
  let st1 : AppState :=
    { st with transcriptFinal := "", transcriptInterim := ""
              tq := { st.tq with items := [] }
              lq := { st.lq with items := [] } }
  if loadOk && openOk then
    ({ st1 with audioRec := some [], isRecording := true }, .started)
  else
    ({ st1 with audioRec := some [] }, .errorShown)

/-- The aggregation step of `App._poll_transcript` for one dequeued
message: a final appends (space-separated once the transcript is
non-empty) and clears the current partial; a partial replaces the
current partial and leaves the final transcript untouched. -/
def applyMsg (acc : String × String) (m : TEvent) : String × String :=
  match m with
  | .finalEv t => (acc.1 ++ (if acc.1 = "" then "" else " ") ++ t, "")
  | .interimEv t => (acc.1, t)

/-- One tick of `App._poll_transcript`: drain the level queue keeping
the last value, then drain the transcript queue folding `applyMsg`
over the messages in FIFO order. -/
def pollTranscript (st : AppState) : AppState :=
  let acc := st.tq.items.foldl applyMsg (st.transcriptFinal, st.transcriptInterim)
  { st with micLevel := st.lq.items.getLast?.getD st.micLevel
            transcriptFinal := acc.1
            transcriptInterim := acc.2
            tq := { st.tq with items := [] }
            lq := { st.lq with items := [] } }

/-- `App._stop_recording` at the `AppState` level: clears the recording
flag, takes the frames from `self._audio_rec.get_frames()` (empty list
when the attribute is `None`), runs the save-and-append tail, and
resets `_audio_rec` to `None`. -/
def appStopRecording (st : AppState) (wavPath : String) (writeOk : Bool)
    (nm ts : String) : AppState :=
  let frames := st.audioRec.getD []
  let r := stopRecording frames st.transcriptFinal wavPath writeOk
             st.recordings nm ts
  { st with isRecording := false, recordings := r.recordings, audioRec := none }

/-- The registry read performed by `App._show_main`:
`self.recordings[-1]` when the list is non-empty. -/
def latestRecording (st : AppState) : Option Summary :=
  st.recordings.getLast?

end Recorder

namespace Recorder

/-- The reads of a failure-free trace: one successful `chunkRead` per
(samples, decoder outcome) pair. -/
def okReads (chunks : List (List Int × DecodeOutcome)) : List ReadResult :=
  chunks.map (fun p => ReadResult.chunkRead p.1 p.2)

theorem processChunk_frames (st : RunState) (samples : List Int)
    (dec : DecodeOutcome) :
    (processChunk st samples dec).frames = st.frames ++ [samples] := by
  cases dec <;> simp only [processChunk] <;> split <;> rfl

theorem putNowait_items {α : Type} (q : BQueue α) (x : α) :
    ∃ tail, (q.putNowait x).items = q.items ++ tail := by
  simp only [BQueue.putNowait]
  split
  · exact ⟨[x], rfl⟩
  · exact ⟨[], (List.append_nil _).symm⟩

theorem processChunk_tq_items (st : RunState) (samples : List Int)
    (dec : DecodeOutcome) :
    ∃ tail, (processChunk st samples dec).tq.items = st.tq.items ++ tail := by
  cases dec <;> simp only [processChunk] <;> split
  · exact putNowait_items _ _
  · exact ⟨[], (List.append_nil _).symm⟩
  · exact putNowait_items _ _
  · exact ⟨[], (List.append_nil _).symm⟩

theorem flushFinal_frames (st : RunState) (raw : String) :
    (flushFinal st raw).frames = st.frames := by
  simp only [flushFinal]; split <;> rfl

theorem flushFinal_tq_items (st : RunState) (raw : String) :
    ∃ tail, (flushFinal st raw).tq.items = st.tq.items ++ tail := by
  simp only [flushFinal]
  split
  · simp only [BQueue.putNowait]
    split
    · exact ⟨_, rfl⟩
    · exact ⟨[], (List.append_nil _).symm⟩
  · exact ⟨[], (List.append_nil _).symm⟩

theorem runReads_ok_frames (chunks : List (List Int × DecodeOutcome)) :
    ∀ st : RunState,
      (runReads st (okReads chunks)).frames = st.frames ++ chunks.map Prod.fst := by
  induction chunks with
  | nil => intro st; simp [okReads, runReads]
  | cons c rest ih =>
      intro st
      simp only [okReads, List.map_cons, runReads] at *
      rw [ih, processChunk_frames]
      simp

theorem runReads_tq_items (reads : List ReadResult) :
    ∀ st : RunState, ∃ tail,
      (runReads st reads).tq.items = st.tq.items ++ tail := by
  induction reads with
  | nil => intro st; exact ⟨[], by simp [runReads]⟩
  | cons r rest ih =>
      intro st
      cases r with
      | readFailure => exact ⟨[], by simp [runReads]⟩
      | chunkRead samples dec =>
          obtain ⟨t1, h1⟩ := processChunk_tq_items st samples dec
          obtain ⟨t2, h2⟩ := ih (processChunk st samples dec)
          exact ⟨t1 ++ t2, by simp [runReads, h2, h1]⟩

theorem runReads_stops_at_failure (pre : List (List Int × DecodeOutcome))
    (post : List ReadResult) :
    ∀ st : RunState,
      runReads st (okReads pre ++ ReadResult.readFailure :: post)
        = runReads st (okReads pre) := by
  induction pre with
  | nil => intro st; simp [okReads, runReads]
  | cons c rest ih =>
      intro st
      simp only [okReads, List.map_cons, List.cons_append, runReads] at *
      exact ih _

theorem sum_map_two_mul (frames : List (List Int)) :
    (frames.map (fun f => 2 * f.length)).sum = 2 * (frames.map List.length).sum := by
  induction frames with
  | nil => simp
  | cons f rest ih => simp [ih, Nat.mul_add]

/-- C7: for every sequence of captured chunks, the finalized WAV
container's declared sample count equals the total number of samples of
the chunks fed, its header carries exactly the configured channel
count, sample rate and 16-bit (2-byte) sample width; and the capture
loop's accumulated frame list grows by exactly one entry per chunk
pulled from the stream. -/
theorem c7_wav_container :
    (∀ frames : List (List Int),
        (save_wav frames).nframes = (frames.map List.length).sum
        ∧ (save_wav frames).nchannels = CHANNELS
        ∧ (save_wav frames).framerate = SAMPLE_RATE
        ∧ (save_wav frames).sampwidth = 2)
    ∧ (∀ (st : RunState) (chunks : List (List Int × DecodeOutcome)),
        (runReads st (okReads chunks)).frames.length
          = st.frames.length + chunks.length) := by
  constructor
  · intro frames
    refine ⟨?_, rfl, rfl, rfl⟩
    simp only [WavFile.nframes, save_wav, CHANNELS, sum_map_two_mul, one_mul]
    omega
  · intro st chunks
    rw [runReads_ok_frames]
    simp

/-- C8: the recording registry is append-only — starting a session and
polling the transcript never change it, stopping a session appends
exactly one fully-built summary at the end, every previously appended
record is left in place unchanged (same index, same value), and the
registry read used by the main screen observes exactly the completed
summary just appended. -/
theorem c8_registry_append_only :
    (∀ (st : AppState) (loadOk openOk : Bool),
        ((startRecording st loadOk openOk).1).recordings = st.recordings)
    ∧ (∀ st : AppState, (pollTranscript st).recordings = st.recordings)
    ∧ (∀ (st : AppState) (wavPath : String) (writeOk : Bool) (nm ts : String),
        (appStopRecording st wavPath writeOk nm ts).recordings
          = st.recordings
            ++ [mkSummary (st.audioRec.getD []) st.transcriptFinal
                  wavPath writeOk nm ts])
    ∧ (∀ (st : AppState) (wavPath : String) (writeOk : Bool) (nm ts : String)
        (i : Nat), i < st.recordings.length →
        (appStopRecording st wavPath writeOk nm ts).recordings[i]?
          = st.recordings[i]?)
    ∧ (∀ (st : AppState) (wavPath : String) (writeOk : Bool) (nm ts : String),
        latestRecording (appStopRecording st wavPath writeOk nm ts)
          = some (mkSummary (st.audioRec.getD []) st.transcriptFinal
              wavPath writeOk nm ts)) := by
  refine ⟨?_, ?_, ?_, ?_, ?_⟩
  · intro st loadOk openOk
    cases h : loadOk && openOk <;> simp [startRecording, h]
  · intro st; rfl
  · intro st wavPath writeOk nm ts; rfl
  · intro st wavPath writeOk nm ts i hi
    show (st.recordings ++ [_])[i]? = _
    rw [List.getElem?_append]
    simp [hi]
  · intro st wavPath writeOk nm ts
    show (st.recordings ++ [_]).getLast? = _
    simp [latestRecording]

/-- C8 witness: the registry operations evaluated at a concrete state
with one prior record. -/
theorem c8_registry_append_only_witness :
    (0 : Nat) < ([{ name := "r0", timestamp := "00:00", wav := none,
                    transcript := "" }] : List Summary).length
    ∧ (appStopRecording
        { isRecording := true
          recordings := [{ name := "r0", timestamp := "00:00", wav := none,
                           transcript := "" }]
          transcriptFinal := "test", transcriptInterim := ""
          tq := ⟨50, []⟩, lq := ⟨10, []⟩, micLevel := 0
          audioRec := some [[0]] } "out.wav" true "r1" "00:01").recordings[0]?
      = ([{ name := "r0", timestamp := "00:00", wav := none,
            transcript := "" }] : List Summary)[0]? := by
  constructor
  · decide
  · exact c8_registry_append_only.2.2.2.1 _ "out.wav" true "r1" "00:01" 0 (by decide)

/-- C10: with zero captured chunks, stopping writes no WAV file at all
(`save_wav` is not invoked, nothing is saved), the appended summary's
wav field is `None`, the summary with its (stripped) transcript is
still appended; and a device failure on the very first read indeed
leaves zero captured chunks. -/
theorem c10_zero_chunks :
    (∀ (transcriptFinal wavPath : String) (writeOk : Bool)
        (recs : List Summary) (nm ts : String),
        (stopRecording [] transcriptFinal wavPath writeOk recs nm ts).writeAttempted
            = false
        ∧ (stopRecording [] transcriptFinal wavPath writeOk recs nm ts).savedFile
            = none
        ∧ (stopRecording [] transcriptFinal wavPath writeOk recs nm ts).recordings
            = recs ++ [{ name := nm, timestamp := ts, wav := none,
                         transcript := stripStr transcriptFinal }])
    ∧ (∀ (tq : BQueue TEvent) (lq : BQueue ℝ) (post : List ReadResult)
        (flushRaw : String),
        (runLoop ⟨[], tq, lq⟩ (ReadResult.readFailure :: post) flushRaw).frames
          = []) := by
  constructor
  · intro transcriptFinal wavPath writeOk recs nm ts
    exact ⟨rfl, rfl, rfl⟩
  · intro tq lq post flushRaw
    simp [runLoop, runReads, flushFinal_frames]

/-- C5: if the WAV write raises during stop, the summary is still built
and appended with its stripped transcript preserved and its wav field
`None`; no file is claimed as a successfully written artifact even
though the write was attempted. -/
theorem c5_wav_write_failure (frames : List (List Int)) (hf : frames ≠ [])
    (transcriptFinal wavPath : String) (recs : List Summary) (nm ts : String) :
    (stopRecording frames transcriptFinal wavPath false recs nm ts).recordings
      = recs ++ [{ name := nm, timestamp := ts, wav := none,
                   transcript := stripStr transcriptFinal }]
    ∧ (stopRecording frames transcriptFinal wavPath false recs nm ts).savedFile
        = none
    ∧ (stopRecording frames transcriptFinal wavPath false recs nm ts).writeAttempted
        = true := by
  refine ⟨?_, ?_, ?_⟩
  · simp [stopRecording, mkSummary, hf]
  · simp [stopRecording, hf]
  · simp [stopRecording, hf]

/-- C5 witness: a concrete one-chunk recording whose WAV write fails. -/
theorem c5_wav_write_failure_witness :
    ([[0, 0]] : List (List Int)) ≠ []
    ∧ (stopRecording [[0, 0]] " hi " "out.wav" false [] "r" "t").recordings
        = [{ name := "r", timestamp := "t", wav := none, transcript := "hi" }] :=
  ⟨by decide,
    ((c5_wav_write_failure [[0, 0]] (by decide) " hi " "out.wav" [] "r" "t").1).trans
      (by decide)⟩

/-- C4: a mid-session device read failure terminates the capture loop
as an implicit stop: the loop is a total function that processes exactly
the reads preceding the failure, every frame captured before the failure
is preserved, transcript events already published are kept (the queue
contents only ever grow at the back), and a subsequent stop still
appends a fully built summary for the preserved frames to the registry. -/
theorem c4_device_failure_graceful (st : RunState)
    (pre : List (List Int × DecodeOutcome)) (post : List ReadResult)
    (flushRaw : String) :
    (runLoop st (okReads pre ++ ReadResult.readFailure :: post) flushRaw).frames
      = st.frames ++ pre.map Prod.fst
    ∧ (∃ tail,
        (runLoop st (okReads pre ++ ReadResult.readFailure :: post) flushRaw).tq.items
          = st.tq.items ++ tail)
    ∧ (∀ (transcriptFinal wavPath : String) (writeOk : Bool)
        (recs : List Summary) (nm ts : String),
        (stopRecording
            (runLoop st (okReads pre ++ ReadResult.readFailure :: post) flushRaw).frames
            transcriptFinal wavPath writeOk recs nm ts).recordings
          = recs ++ [mkSummary (st.frames ++ pre.map Prod.fst)
              transcriptFinal wavPath writeOk nm ts]) := by
  have hframes :
      (runLoop st (okReads pre ++ ReadResult.readFailure :: post) flushRaw).frames
        = st.frames ++ pre.map Prod.fst := by
    rw [runLoop, flushFinal_frames, runReads_stops_at_failure, runReads_ok_frames]
  refine ⟨hframes, ?_, ?_⟩
  · obtain ⟨t1, h1⟩ :=
      runReads_tq_items (okReads pre ++ ReadResult.readFailure :: post) st
    obtain ⟨t2, h2⟩ :=
      flushFinal_tq_items
        (runReads st (okReads pre ++ ReadResult.readFailure :: post)) flushRaw
    exact ⟨t1 ++ t2, by rw [runLoop, h2, h1, List.append_assoc]⟩
  · intro transcriptFinal wavPath writeOk recs nm ts
    rw [hframes]
    rfl

theorem putNowait_forall {α : Type} (p : α → Prop) (q : BQueue α) (x : α)
    (hq : ∀ e ∈ q.items, p e) (hx : p x) :
    ∀ e ∈ (q.putNowait x).items, p e := by
  simp only [BQueue.putNowait]
  split
  · intro e he
    rcases List.mem_append.1 he with h' | h'
    · exact hq e h'
    · rw [List.mem_singleton.1 h']; exact hx
  · exact hq

theorem processChunk_no_empty (st : RunState) (samples : List Int)
    (dec : DecodeOutcome) (h : ∀ e ∈ st.tq.items, e.text ≠ "") :
    ∀ e ∈ (processChunk st samples dec).tq.items, e.text ≠ "" := by
  cases dec <;> simp only [processChunk] <;> split
  · exact putNowait_forall _ _ _ h (by assumption)
  · exact h
  · exact putNowait_forall _ _ _ h (by assumption)
  · exact h

theorem flushFinal_no_empty (st : RunState) (raw : String)
    (h : ∀ e ∈ st.tq.items, e.text ≠ "") :
    ∀ e ∈ (flushFinal st raw).tq.items, e.text ≠ "" := by
  simp only [flushFinal]
  split
  · exact putNowait_forall _ _ _ h (by assumption)
  · exact h

theorem runReads_no_empty (reads : List ReadResult) :
    ∀ st : RunState, (∀ e ∈ st.tq.items, e.text ≠ "") →
      ∀ e ∈ (runReads st reads).tq.items, e.text ≠ "" := by
  induction reads with
  | nil => intro st h; exact h
  | cons r rest ih =>
      intro st h
      cases r with
      | readFailure => exact h
      | chunkRead samples dec =>
          exact ih _ (processChunk_no_empty st samples dec h)

/-- C9: every event the capture loop publishes to the transcript channel
carries non-empty text — both the per-chunk final/partial publishes and
the end-of-loop flush are guarded by an emptiness check on the stripped
text, so a consumer starting from a queue holding only non-empty events
never receives an empty Partial or empty Final event. -/
theorem c9_no_empty_events (st : RunState) (reads : List ReadResult)
    (flushRaw : String) (h : ∀ e ∈ st.tq.items, e.text ≠ "") :
    ∀ e ∈ (runLoop st reads flushRaw).tq.items, e.text ≠ "" :=
  flushFinal_no_empty _ _ (runReads_no_empty reads st h)

/-- C9 witness: a run from an empty transcript queue over one chunk
whose decoder hypothesis is whitespace-padded, with a blank flush,
publishes exactly the stripped final, whose text is non-empty. -/
theorem c9_no_empty_events_witness :
    (runLoop ⟨[], ⟨50, []⟩, ⟨10, []⟩⟩
        [ReadResult.chunkRead [0] (DecodeOutcome.finalRes " hi ")]
        "  ").tq.items = [TEvent.finalEv "hi"]
    ∧ (TEvent.finalEv "hi").text ≠ "" := by
  have hitems : (runLoop ⟨[], ⟨50, []⟩, ⟨10, []⟩⟩
      [ReadResult.chunkRead [0] (DecodeOutcome.finalRes " hi ")]
      "  ").tq.items = [TEvent.finalEv "hi"] := rfl
  refine ⟨hitems, ?_⟩
  exact c9_no_empty_events ⟨[], ⟨50, []⟩, ⟨10, []⟩⟩
    [ReadResult.chunkRead [0] (DecodeOutcome.finalRes " hi ")] "  "
    (by intro e he; simp at he)
    (TEvent.finalEv "hi") (by rw [hitems]; exact List.mem_singleton.2 rfl)

/-- C1: contrary to the claim, a Final result is NOT delivered when the
transcript channel is full — `_run` publishes finals with the same
`put_nowait`/`except queue.Full: pass` pattern as partials.  With the
queue at its configured capacity of 50, a chunk decoded as
`Final "hello"` and a trailing flush `"bye"` leave the queue unchanged
(both finals silently dropped), whereas one extra slot of capacity lets
the chunk's final through. -/
theorem c1_final_dropped_when_queue_full :
    (runLoop ⟨[], ⟨50, List.replicate 50 (TEvent.interimEv "x")⟩, ⟨10, []⟩⟩
        [ReadResult.chunkRead [0] (DecodeOutcome.finalRes "hello")]
        "bye").tq.items
      = List.replicate 50 (TEvent.interimEv "x")
    ∧ (runLoop ⟨[], ⟨51, List.replicate 50 (TEvent.interimEv "x")⟩, ⟨10, []⟩⟩
        [ReadResult.chunkRead [0] (DecodeOutcome.finalRes "hello")]
        "bye").tq.items
      = List.replicate 50 (TEvent.interimEv "x") ++ [TEvent.finalEv "hello"] :=
  ⟨rfl, rfl⟩

/-- C3: contrary to the claim, `_start_recording` invoked while a
session is active does not fail with any busy error: it reports a
started session and has already cleared the existing session's
transcript strings and drained its channels (there is no
`is_recording` check on this path). -/
theorem c3_start_while_active_not_busy :
    (startRecording
        { isRecording := true, recordings := []
          transcriptFinal := "hello", transcriptInterim := "wor"
          tq := ⟨50, [TEvent.finalEv "pending"]⟩, lq := ⟨10, []⟩
          micLevel := 0, audioRec := some [[1, 2]] } true true).2
      = StartOutcome.started
    ∧ (startRecording
        { isRecording := true, recordings := []
          transcriptFinal := "hello", transcriptInterim := "wor"
          tq := ⟨50, [TEvent.finalEv "pending"]⟩, lq := ⟨10, []⟩
          micLevel := 0, audioRec := some [[1, 2]] } true true).1.transcriptFinal
      = ""
    ∧ (startRecording
        { isRecording := true, recordings := []
          transcriptFinal := "hello", transcriptInterim := "wor"
          tq := ⟨50, [TEvent.finalEv "pending"]⟩, lq := ⟨10, []⟩
          micLevel := 0, audioRec := some [[1, 2]] } true true).1.tq.items
      = [] :=
  ⟨rfl, rfl, rfl⟩

theorem rms_nonneg (samples : List Int) : 0 ≤ rms samples :=
  div_nonneg (Real.sqrt_nonneg _) (by norm_num)

/-- C6: the level is a pure function of the chunk's samples — the RMS of
the sample values normalized by 32768, scaled by the fixed gain 6 and
clamped at 1.0 — hence for every chunk it lies in [0,1], a full-silence
chunk yields exactly 0, and a full-scale chunk of alternating
maximal/minimal 16-bit samples yields at least 0.9. -/
theorem c6_level_meter :
    (∀ samples : List Int, samples ≠ [] →
        0 ≤ level samples ∧ level samples ≤ 1)
    ∧ (∀ n : Nat, 0 < n → level (List.replicate n 0) = 0)
    ∧ (∀ samples : List Int, samples ≠ [] →
        (∀ s ∈ samples, s = 32767 ∨ s = -32768) →
        (9 / 10 : ℝ) ≤ level samples) := by
  refine ⟨?_, ?_, ?_⟩
  · intro samples _
    exact ⟨le_min zero_le_one (mul_nonneg (rms_nonneg samples) (by norm_num)),
           min_le_left _ _⟩
  · intro n _
    have hz : ((List.replicate n (0 : Int)).map
        (fun s : Int => (s : ℝ) * (s : ℝ))).sum = 0 := by
      simp
    simp [level, rms, hz]
  · intro samples hne hfs
    have hn : (0 : ℝ) < samples.length := by
      exact_mod_cast List.length_pos.2 hne
    have hmem : ∀ x ∈ samples.map (fun s : Int => (s : ℝ) * (s : ℝ)),
        (32767 : ℝ) ^ 2 ≤ x := by
      intro x hx
      obtain ⟨s, hs, rfl⟩ := List.mem_map.1 hx
      rcases hfs s hs with h | h <;> subst h <;> push_cast <;> norm_num
    have hsum := List.card_nsmul_le_sum
      (samples.map (fun s : Int => (s : ℝ) * (s : ℝ))) ((32767 : ℝ) ^ 2) hmem
    rw [List.length_map, nsmul_eq_mul] at hsum
    have hmean : (32767 : ℝ) ^ 2
        ≤ (samples.map (fun s : Int => (s : ℝ) * (s : ℝ))).sum / samples.length := by
      rw [le_div_iff₀ hn, mul_comm]
      exact hsum
    have hsqrt : (32767 : ℝ)
        ≤ Real.sqrt ((samples.map (fun s : Int => (s : ℝ) * (s : ℝ))).sum /
            samples.length) :=
      Real.le_sqrt_of_sq_le hmean
    have hrms : (32767 : ℝ) / 32768 ≤ rms samples :=
      (div_le_div_iff_of_pos_right (by norm_num : (0 : ℝ) < 32768)).mpr hsqrt
    have h6 : (9 / 10 : ℝ) ≤ rms samples * 6 := by
      calc (9 / 10 : ℝ) ≤ 32767 / 32768 * 6 := by norm_num
        _ ≤ rms samples * 6 :=
            mul_le_mul_of_nonneg_right hrms (by norm_num)
    exact le_min (by norm_num) h6

/-- C6 witness: the bounds at a concrete alternating full-scale
two-sample chunk and at a concrete silent chunk. -/
theorem c6_level_meter_witness :
    (([32767, -32768] : List Int) ≠ []
      ∧ 0 ≤ level [32767, -32768] ∧ level [32767, -32768] ≤ 1)
    ∧ level (List.replicate 2 0) = 0
    ∧ (9 / 10 : ℝ) ≤ level [32767, -32768] :=
  ⟨⟨by decide, (c6_level_meter.1 _ (by decide)).1, (c6_level_meter.1 _ (by decide)).2⟩,
   c6_level_meter.2.1 2 (by decide),
   c6_level_meter.2.2 _ (by decide) (by decide)⟩

/-- C2: transcript aggregation — each partial replaces the current
partial text leaving the cumulative transcript untouched, each final
appends its text (space-separated once non-empty) to the cumulative
transcript and clears the current partial; and consuming
`[Partial "he", Partial "hello", Final "hello world"]` from an empty
transcript yields exactly `"hello world"` with empty partial remainder. -/
theorem c2_transcript_aggregation :
    (∀ f p t, applyMsg (f, p) (TEvent.interimEv t) = (f, t))
    ∧ (∀ f p t, applyMsg (f, p) (TEvent.finalEv t)
        = (f ++ (if f = "" then "" else " ") ++ t, ""))
    ∧ (∀ st : AppState, st.transcriptFinal = "" → st.transcriptInterim = "" →
        st.tq.items = [TEvent.interimEv "he", TEvent.interimEv "hello",
                       TEvent.finalEv "hello world"] →
        (pollTranscript st).transcriptFinal = "hello world"
        ∧ (pollTranscript st).transcriptInterim = "") := by
  refine ⟨fun f p t => rfl, fun f p t => rfl, fun st h1 h2 h3 => ?_⟩
  simp [pollTranscript, h1, h2, h3, applyMsg]

/-- Closed-form check of C2's hypothesised part at a concrete state. -/
theorem c2_transcript_aggregation_witness :
    (pollTranscript
      { isRecording := true, recordings := [], transcriptFinal := ""
        transcriptInterim := ""
        tq := ⟨50, [TEvent.interimEv "he", TEvent.interimEv "hello",
                    TEvent.finalEv "hello world"]⟩
        lq := ⟨10, []⟩, micLevel := 0, audioRec := some [] }).transcriptFinal
      = "hello world"
    ∧ (pollTranscript
      { isRecording := true, recordings := [], transcriptFinal := ""
        transcriptInterim := ""
        tq := ⟨50, [TEvent.interimEv "he", TEvent.interimEv "hello",
                    TEvent.finalEv "hello world"]⟩
        lq := ⟨10, []⟩, micLevel := 0, audioRec := some [] }).transcriptInterim
      = "" :=
  c2_transcript_aggregation.2.2 _ rfl rfl rfl

end Recorder
